import Mathlib

/-!
Verification development for the experimenter repository.

The Python modules `app.py`, `temporal.py`, `semantic_search.py` and
`sciencetree.py` are shallowly embedded below: pure string manipulation is
translated over the character lists backing the Python strings, the external
OpenAI/Anthropic clients become explicit function parameters, and code that
can raise exceptions returns `Except`.  Floating-point similarity scores are
modelled as integers (`Int`): every property proved here is about comparisons
and ordering of scores, never about rounding, so any linearly ordered numeric
carrier gives the same statements, and `Int` keeps every definition
kernel-executable.  NumPy's `-inf` sentinel for a missing document section is
modelled as `⊥` in `WithBot Int`.
-/

/-! ## Python string primitives

Python's `str.split`, indexing and the `in` operator, translated over
`List Char`.  `findSplit` locates the first occurrence of a separator.
-/

/-- Locate the first occurrence of the separator `sep` in `s`; return the text
before it and the text after it, or `none` when `sep` does not occur.  Callers
always pass a non-empty separator (Python raises on an empty one). -/
def findSplit (sep : List Char) : List Char → Option (List Char × List Char)
  | [] => none
  | c :: cs =>
    if sep.isPrefixOf (c :: cs) then some ([], (c :: cs).drop sep.length)
    else (findSplit sep cs).map (fun p => (c :: p.1, p.2))

/-- Fuel-driven core of Python `str.split` for a non-empty separator.  The fuel
`s.length` passed by `pySplit` always suffices, because every removed separator
occurrence consumes at least one character of `s`. -/
def pySplitAux (sep : List Char) : Nat → List Char → List (List Char)
  | 0, s => [s]
  | fuel + 1, s =>
    match findSplit sep s with
    | none => [s]
    | some (pre, post) => pre :: pySplitAux sep fuel post

/-- Python `s.split(sep)` for a non-empty separator `sep`. -/
def pySplit (sep s : List Char) : List (List Char) := pySplitAux sep s.length s

/-- Python list indexing `[0]`, as applied to the never-empty result of
`str.split`. -/
def pyHead : List (List Char) → List Char
  | [] => []
  | x :: _ => x

/-- Python list indexing `[-1]`, as applied to the never-empty result of
`str.split`. -/
def pyLast : List (List Char) → List Char
  | [] => []
  | [x] => x
  | _ :: x :: xs => pyLast (x :: xs)

/-- Python substring test `sep in s`. -/
def pyContains (sep s : List Char) : Bool := (findSplit sep s).isSome

/-- Lexicographic comparison of strings through their character lists; used to
state "document id ascending". -/
def strLtChars : List Char → List Char → Bool
  | [], [] => false
  | [], _ :: _ => true
  | _ :: _, [] => false
  | a :: as, b :: bs => if a < b then true else if b < a then false else strLtChars as bs

/-! ## app.py -/

/-- `app.py` `format_paper_link`: ids carrying a `.txt` marker go through
`paper_id.split('_')[0].split('astro-ph')[-1]` and are formatted under the
`astro-ph/` URL prefix; all other ids are formatted directly. -/
def format_paper_link (paper_id : String) : String :=
  if pyContains ".txt".data paper_id.data then
    "https://arxiv.org/abs/astro-ph/" ++
      String.mk (pyLast (pySplit "astro-ph".data (pyHead (pySplit "_".data paper_id.data))))
  else
    "https://arxiv.org/abs/" ++ paper_id

/-- The characters of `s` before the first occurrence of `c` (all of `s` when
`c` does not occur). -/
def untilChar (c : Char) : List Char → List Char
  | [] => []
  | a :: as => if a = c then [] else a :: untilChar c as

/-- The substring of `s` before its first underscore, stated directly as the
specification words it. -/
def beforeUnderscore (s : List Char) : List Char := untilChar '_' s

/-- Fuel-driven scan for the text after the last occurrence of `sep` in `s`
(`s` itself when `sep` does not occur). -/
def afterLastAux (sep : List Char) : Nat → List Char → List Char
  | 0, s => s
  | fuel + 1, s =>
    match findSplit sep s with
    | none => s
    | some p => afterLastAux sep fuel p.2

/-- The text after the last occurrence of `sep` in `s` (`s` itself when `sep`
does not occur). -/
def afterLast (sep s : List Char) : List Char := afterLastAux sep s.length s

/-- The paper-id-to-URL rule exactly as the specification states it: for ids
with a `.txt` marker, keep the part before the first underscore and strip a
leading `astro-ph` prefix only.  Kept separate from `format_paper_link` so the
two rules can be compared. -/
def specPaperLink (paper_id : String) : String :=
  if pyContains ".txt".data paper_id.data then
    let p := beforeUnderscore paper_id.data
    let stripped := if "astro-ph".data.isPrefixOf p then p.drop "astro-ph".data.length else p
    "https://arxiv.org/abs/astro-ph/" ++ String.mk stripped
  else
    "https://arxiv.org/abs/" ++ paper_id

/-! ## temporal.py

The temporal-cue regular expression of `is_temporal_query` is translated
branch by branch into a small backtracking matcher over character lists.  A
matcher consumes a prefix of its input and returns the list of possible
remainders; a branch matches at a position iff that list is non-empty.
-/

/-- Python `\s` whitespace class. -/
def pyIsSpace (c : Char) : Bool :=
  c = ' ' || c = '\t' || c = '\n' || c = '\r' || c = '\x0b' || c = '\x0c'

/-- Match a literal word. -/
def mlit (w : String) (s : List Char) : List (List Char) :=
  if w.data.isPrefixOf s then [s.drop w.data.length] else []

/-- Sequence two matchers. -/
def mseq (a b : List Char → List (List Char)) (s : List Char) : List (List Char) :=
  ((a s).map b).flatten

/-- Alternation of two matchers. -/
def malt (a b : List Char → List (List Char)) (s : List Char) : List (List Char) :=
  a s ++ b s

/-- Alternation of literal words. -/
def maltL (ws : List String) (s : List Char) : List (List Char) :=
  (ws.map (fun w => mlit w s)).flatten

/-- Optional matcher (`?` in the pattern). -/
def mopt (a : List Char → List (List Char)) (s : List Char) : List (List Char) :=
  s :: a s

/-- One-or-more characters of class `p` (`+` in the pattern), with every
possible stopping point returned. -/
def mplus (p : Char → Bool) : List Char → List (List Char)
  | [] => []
  | c :: cs => if p c then cs :: mplus p cs else []

/-- Zero-or-more characters of class `p` (`*` in the pattern). -/
def mstar (p : Char → Bool) (s : List Char) : List (List Char) :=
  s :: mplus p s

/-- Exactly `n` characters of class `p` (`{n}` in the pattern). -/
def mexact (p : Char → Bool) : Nat → List Char → List (List Char)
  | 0, s => [s]
  | _ + 1, [] => []
  | n + 1, c :: cs => if p c then mexact p n cs else []

/-- The twelve alternation branches of the `is_temporal_query` pattern, in
source order: years/year ranges, century references, relative time phrases,
time adjectives, process words, astronomical events, space missions,
scientific milestones, comparative phrases, temporal prepositions, era
indicators, data/mission events.  All literals are lowercase because the
search lowercases its input (re.IGNORECASE). -/
def temporalBranches : List (List Char → List (List Char)) :=
  [ mseq (mexact Char.isDigit 4)
      (mopt (mseq (mstar pyIsSpace)
        (mseq (mlit "-") (mseq (mstar pyIsSpace) (mexact Char.isDigit 4))))),
    mseq (malt (mexact Char.isDigit 1) (mexact Char.isDigit 2))
      (mseq (maltL ["st", "nd", "rd", "th"]) (mseq (mplus pyIsSpace) (mlit "century"))),
    mseq (maltL ["last", "past", "next", "coming", "future"])
      (mseq (mplus pyIsSpace) (mseq (mplus Char.isDigit)
        (mseq (mplus pyIsSpace) (maltL ["year", "decade", "century"])))),
    maltL ["recent", "latest", "current", "ongoing", "future", "past", "historical", "ancient"],
    malt (maltL ["evolution", "progress"])
      (malt (mseq (mlit "change") (mopt (mlit "s")))
        (malt (mseq (mlit "advancement") (mopt (mlit "s")))
          (mseq (mlit "development") (mopt (mlit "s"))))),
    malt (mseq (mlit "solar") (mseq (mplus pyIsSpace) (mlit "eclipse")))
      (maltL ["equinox", "solstice"]),
    maltL ["mission", "probe", "telescope", "spacecraft"],
    malt (mseq (mlit "nobel") (mseq (mplus pyIsSpace) (mlit "prize")))
      (maltL ["discovery", "detection"]),
    malt (mseq (mlit "before")
        (mseq (mplus pyIsSpace) (mseq (mlit "and") (mseq (mplus pyIsSpace) (mlit "after")))))
      (malt (mseq (mlit "compared") (mseq (mplus pyIsSpace) (mlit "with")))
        (mseq (mlit "vs") (mopt (mlit ".")))),
    malt (maltL ["since", "until"])
      (malt (mseq (mlit "prior") (mseq (mplus pyIsSpace) (mlit "to")))
        (maltL ["post-", "pre-"])),
    maltL ["ad", "bc"],
    maltL ["release", "launch"] ]

/-- All suffixes of a character list: the start positions `re.search` tries. -/
def suffixesOf : List Char → List (List Char)
  | [] => [[]]
  | c :: cs => (c :: cs) :: suffixesOf cs

/-- temporal.py `is_temporal_query`: `re.search` of the verbose,
case-insensitive temporal-cue pattern, true iff some branch matches at some
position of the lowercased query. -/
def is_temporal_query (query : String) : Bool :=
  (suffixesOf (query.data.map Char.toLower)).any
    (fun suf => temporalBranches.any (fun m => !(m suf).isEmpty))

/-- The temporal-analysis dictionary built by `analyze_temporal_query`. -/
structure TemporalResult where
  has_temporal_aspect : Bool
  expected_year_filter : Option String
  expected_recency_weight : Option Int
deriving DecidableEq

/-- The single-quote character, written through its code point. -/
def squote : Char := Char.ofNat 39

/-- A word wrapped in Python single quotes. -/
def pyQuoted (w : String) : String :=
  String.singleton squote ++ w ++ String.singleton squote

/-- Skip Python whitespace. -/
def skipWs (s : List Char) : List Char := s.dropWhile pyIsSpace

/-- Consume an expected literal. -/
def expectLit (w : String) (s : List Char) : Option (List Char) :=
  if w.data.isPrefixOf s then some (s.drop w.data.length) else none

/-- Consume one expected character. -/
def expectChar (c : Char) : List Char → Option (List Char)
  | [] => none
  | a :: as => if a = c then some as else none

/-- Numeric value of a digit run. -/
def digitsToNat (w : List Char) : Nat :=
  w.foldl (fun n c => n * 10 + (c.toNat - 48)) 0

/-- Read a single-quoted Python string literal (the modelled responses carry
no escape sequences). -/
def readQuoted (s : List Char) : Option (String × List Char) :=
  match expectChar squote s with
  | none => none
  | some rest =>
    let body := untilChar squote rest
    match expectChar squote (rest.drop body.length) with
    | none => none
    | some rest2 => some (String.mk body, rest2)

/-- Read a non-negative integer literal. -/
def readInt (s : List Char) : Option (Int × List Char) :=
  let digits := s.takeWhile Char.isDigit
  if digits.isEmpty then none
  else some ((digitsToNat digits : Int), s.drop digits.length)

/-- Models the behavior of Python `eval(...)` followed by the two key lookups
in `analyze_temporal_query`, on responses that are Python dictionary literals
of the shape the prompt requests:
`\x7b'expected_year_filter': <'...'|None>, 'expected_recency_weight': <int|None>\x7d`.
On such a response `eval` succeeds and the code reads the two values back
verbatim — no validation of the filter string against any grammar happens
anywhere in the source.  A response outside this shape makes `eval` execute
whatever expression it happens to be; that genuine code execution has no
shallow embedding and is mapped to `none` here. -/
def pyEvalTemporalDict (response : String) : Option (Option String × Option Int) := do
  let s1 ← expectChar '\x7b' (skipWs response.data)
  let s2 ← expectLit (pyQuoted "expected_year_filter") (skipWs s1)
  let s3 ← expectChar ':' (skipWs s2)
  let (filterVal, s4) ←
    match expectLit "None" (skipWs s3) with
    | some r => some ((none : Option String), r)
    | none => do
      let (str, r) ← readQuoted (skipWs s3)
      some (some str, r)
  let s5 ← expectChar ',' (skipWs s4)
  let s6 ← expectLit (pyQuoted "expected_recency_weight") (skipWs s5)
  let s7 ← expectChar ':' (skipWs s6)
  let (wVal, s8) ←
    match expectLit "None" (skipWs s7) with
    | some r => some ((none : Option Int), r)
    | none => do
      let (n, r) ← readInt (skipWs s7)
      some (some n, r)
  let s9 ← expectChar '\x7d' (skipWs s8)
  if (skipWs s9).isEmpty then some (filterVal, wVal) else none

/-- The prompt `analyze_temporal_query` sends to the generation client.  The
instruction text is abridged: no property proved below depends on its wording,
only on the fact that exactly one message carrying the query is sent. -/
def temporalPrompt (query : String) : String :=
  "Analyze the following query for its temporal aspects. Provide your " ++
  "analysis in a Python dictionary format with the keys expected_year_filter " ++
  "and expected_recency_weight. Query: \"" ++ query ++ "\""

/-- temporal.py `analyze_temporal_query`, with the Anthropic client abstracted
as `complete` and the wall-clock timing dropped.  The returned list records
every prompt sent to the client.  On a temporal query the response text is
fed to `eval` (modelled by `pyEvalTemporalDict`); a response outside the
modelled dictionary shape raises, which surfaces as `.error`.  There is no
`TemporalAnalysisError` in the source, no fallback, and no grammar check of
the returned filter expression. -/
def analyze_temporal_query (complete : String → String) (query : String) :
    Except String (TemporalResult × List String) :=
  if is_temporal_query query then
    let prompt := temporalPrompt query
    match pyEvalTemporalDict (complete prompt) with
    | none => .error "eval: response outside the modelled dictionary shape"
    | some (f, w) => .ok (⟨true, f, w⟩, [prompt])
  else
    .ok (⟨false, none, none⟩, [])

/-! Year-filter grammar, modelled from the spec.  §4.3/§9 require a strict
structured parser limited to comparisons on the single variable `year`
combined with and/or/not; the repository contains no such parser (temporal.py
line 82 calls `eval` instead), so the grammar is reconstructed here from the
specification's words in order to state what the strict parser accepts. -/

/-- Modelled from the spec: tokens of the year-filter grammar. -/
inductive YearTok where
  | year
  | conj
  | disj
  | neg
  | num (n : Nat)
  | cmp (op : String)
  | lparen
  | rparen
deriving DecidableEq

/-- Modelled from the spec: tokenizer for the year-filter grammar.  Keywords
are `year`, `and`, `or`, `not`; numbers are digit runs; comparison operators
are `<`, `>`, `<=`, `>=`, `==`, `!=`; any other character is rejected.  The
fuel `s.length + 1` always suffices since every token consumes a character. -/
def yearTokenizeAux : Nat → List Char → Option (List YearTok)
  | 0, s => if s.isEmpty then some [] else none
  | fuel + 1, s0 =>
    match skipWs s0 with
    | [] => some []
    | c :: cs =>
      if c.isAlpha then
        let w := (c :: cs).takeWhile Char.isAlpha
        let rest := (c :: cs).drop w.length
        if String.mk w = "year" then (yearTokenizeAux fuel rest).map (YearTok.year :: ·)
        else if String.mk w = "and" then (yearTokenizeAux fuel rest).map (YearTok.conj :: ·)
        else if String.mk w = "or" then (yearTokenizeAux fuel rest).map (YearTok.disj :: ·)
        else if String.mk w = "not" then (yearTokenizeAux fuel rest).map (YearTok.neg :: ·)
        else none
      else if c.isDigit then
        let w := (c :: cs).takeWhile Char.isDigit
        (yearTokenizeAux fuel ((c :: cs).drop w.length)).map (YearTok.num (digitsToNat w) :: ·)
      else if c = '(' then (yearTokenizeAux fuel cs).map (YearTok.lparen :: ·)
      else if c = ')' then (yearTokenizeAux fuel cs).map (YearTok.rparen :: ·)
      else if c = '<' || c = '>' then
        match cs with
        | '=' :: rest2 => (yearTokenizeAux fuel rest2).map (YearTok.cmp (String.mk [c, '=']) :: ·)
        | _ => (yearTokenizeAux fuel cs).map (YearTok.cmp (String.mk [c]) :: ·)
      else if c = '=' then
        match cs with
        | '=' :: rest2 => (yearTokenizeAux fuel rest2).map (YearTok.cmp "==" :: ·)
        | _ => none
      else if c = '!' then
        match cs with
        | '=' :: rest2 => (yearTokenizeAux fuel rest2).map (YearTok.cmp "!=" :: ·)
        | _ => none
      else none

/-- Modelled from the spec: recursive-descent recognizer for the year-filter
grammar.  Level 0 parses an or-expression, level 1 an and-expression, level 2
a (possibly negated) atom: `year <cmp> <number>` or a parenthesized
expression.  Returns the unconsumed tokens on success. -/
def yearParseLvl : Nat → Nat → List YearTok → Option (List YearTok)
  | 0, _, _ => none
  | fuel + 1, 0, ts =>
    match yearParseLvl fuel 1 ts with
    | none => none
    | some (YearTok.disj :: rest2) => yearParseLvl fuel 0 rest2
    | some rest => some rest
  | fuel + 1, 1, ts =>
    match yearParseLvl fuel 2 ts with
    | none => none
    | some (YearTok.conj :: rest2) => yearParseLvl fuel 1 rest2
    | some rest => some rest
  | fuel + 1, _, ts =>
    match ts with
    | YearTok.neg :: rest => yearParseLvl fuel 2 rest
    | YearTok.year :: YearTok.cmp _ :: YearTok.num _ :: rest => some rest
    | YearTok.lparen :: rest =>
      match yearParseLvl fuel 0 rest with
      | some (YearTok.rparen :: rest2) => some rest2
      | _ => none
    | _ => none

/-- Modelled from the spec: a string belongs to the year-filter grammar iff it
tokenizes and a complete parse consumes every token. -/
def yearFilterOk (s : String) : Bool :=
  match yearTokenizeAux (s.data.length + 1) s.data with
  | none => false
  | some ts =>
    match yearParseLvl (2 * ts.length + 4) 0 ts with
    | some [] => true
    | _ => false

/-- A syntactically well-formed model response whose filter value `len(query)`
is outside the year-filter grammar. -/
def badFilterResponse : String :=
  "\x7b" ++ pyQuoted "expected_year_filter" ++ ": " ++ pyQuoted "len(query)" ++
  ", " ++ pyQuoted "expected_recency_weight" ++ ": 5\x7d"

/-! ## semantic_search.py -/

/-- Index-mapping entry for one document: the matrix row of its abstract
section and of its conclusions section, each present only when that section
was embedded. -/
structure Mappings where
  abstract : Option Nat
  conclusions : Option Nat
deriving DecidableEq

/-- The state loaded by `EmbeddingRetrievalSystem.__init__`: the embedding
matrix (one row per embedded section), the index mapping in its dictionary
iteration (= insertion) order, and the three filter toggles, which the
constructor defaults to off.  The document list, document dates and metadata
are omitted: no code path modelled below reads them (`init_filters` is
commented out in the constructor, and every call of the date and citation
filters inside `rank_and_filter` is commented out as well). -/
structure EmbeddingRetrievalSystem where
  embeddings : List (List Int)
  index_mapping : List (String × Mappings)
  weight_citation : Bool := false
  weight_date : Bool := false
  weight_keywords : Bool := false

/-- Dot product of one embedding row with the query embedding. -/
def dotRow (row q : List Int) : Int := (List.zipWith (fun a b => a * b) row q).sum

/-- `similarities = np.dot(self.embeddings, query_embedding)`, read at a row
index.  Row indices referenced by the index mapping are in bounds for the
matrix — a load-time invariant of the corpus artifacts — so the default row
is never read. -/
def simsOf (sys : EmbeddingRetrievalSystem) (query_embedding : List Int) : Nat → Int :=
  fun i => dotRow (sys.embeddings.getD i []) query_embedding

/-- Similarity of one section: the similarity of its matrix row, or `-np.inf`
(modelled as `⊥`) when the section is absent from the index mapping. -/
def secSim (similarities : Nat → Int) : Option Nat → WithBot Int
  | some i => (similarities i : WithBot Int)
  | none => ⊥

/-- The per-document body of the scoring loop in `rank_and_filter`: compare
the abstract-row and conclusions-row similarities and append one entry with
the larger, tagged with the section that won.  `abstract` wins only strictly,
matching `if abstract_sim > conclusions_sim`. -/
def scoreDoc (similarities : Nat → Int) (p : String × Mappings) :
    String × String × WithBot Int :=
  if secSim similarities p.2.abstract > secSim similarities p.2.conclusions then
    (p.1, "abstract", secSim similarities p.2.abstract)
  else
    (p.1, "conclusions", secSim similarities p.2.conclusions)

/-- The `results` list built by the scoring loop of `rank_and_filter`: one
entry per index-mapping document, in mapping iteration order. -/
def scoreResults (similarities : Nat → Int) (im : List (String × Mappings)) :
    List (String × String × WithBot Int) := im.map (scoreDoc similarities)

/-- Insertion step of a stable score-descending sort: the inserted element
goes before the first strictly smaller score and after equal scores. -/
def insertDesc (x : String × String × WithBot Int) :
    List (String × String × WithBot Int) → List (String × String × WithBot Int)
  | [] => [x]
  | y :: ys => if x.2.2 ≥ y.2.2 then x :: y :: ys else y :: insertDesc x ys

/-- Python's `sorted(results, key=lambda x: x[2], reverse=True)`: a stable
sort by score descending, reproduced by stable insertion — any stable
descending sort yields the same list, so this matches Timsort's output. -/
def pySortDesc : List (String × String × WithBot Int) → List (String × String × WithBot Int)
  | [] => []
  | x :: xs => insertDesc x (pySortDesc xs)

/-- The sorted-and-truncated candidate list `top_results` of
`rank_and_filter` (the filter-chain stages between scoring and sorting are
all commented out in the source: `filtered_results = results`). -/
def topResults (sys : EmbeddingRetrievalSystem) (query_embedding : List Int) (top_k : Nat) :
    List (String × String × WithBot Int) :=
  (pySortDesc (scoreResults (simsOf sys query_embedding) sys.index_mapping)).take top_k

/-- The two shapes `rank_and_filter` can return: the id→score dictionary when
`return_scores` is set, otherwise the plain id list. -/
inductive RankResult where
  | ids (l : List String)
  | scores (l : List (String × WithBot Int))
deriving DecidableEq

/-- semantic_search.py `rank_and_filter`.  `query`, `query_date` and
`time_result` are accepted exactly as in the source and — exactly as in the
source — never used: the keyword filter body only runs under the
`weight_keywords` toggle, where the missing `self.keyword_filter` attribute
(its initialisation is commented out in `__init__`) would raise; the date and
citation filter calls are commented out. -/
def rank_and_filter (sys : EmbeddingRetrievalSystem) (query : String)
    (query_embedding : List Int) (query_date : Option Int) (top_k : Nat)
    (return_scores : Bool) (time_result : TemporalResult) : Except String RankResult :=
  if sys.weight_keywords then .error "AttributeError: keyword_filter" else
  let top := topResults sys query_embedding top_k
  if return_scores then .ok (.scores (top.map (fun d => (d.1, d.2.2))))
  else .ok (.ids (top.map (fun d => d.1)))

/-- semantic_search.py `retrieve`.  The OpenAI embedding client, the Anthropic
client behind `analyze_temporal_query` and the `parse_date` helper (defined in
`evaluate.py`, outside this repository's source) are explicit parameters.  The
temporal-analysis branch only runs under `weight_date` when no `time_result`
was supplied, exactly as in the source. -/
def retrieve (sys : EmbeddingRetrievalSystem) (embed : String → List Int)
    (complete : String → String) (parse_date : Option String → Option Int)
    (query : String) (arxiv_id : Option String) (top_k : Nat)
    (return_scores : Bool) (time_result : Option TemporalResult) :
    Except String RankResult :=
  let query_date := parse_date arxiv_id
  let query_embedding := embed query
  let tr : Except String TemporalResult :=
    match time_result with
    | some t => .ok t
    | none =>
      if sys.weight_date then
        match analyze_temporal_query complete query with
        | .ok (t, _) => .ok t
        | .error e => .error e
      else .ok ⟨false, none, none⟩
  match tr with
  | .error e => .error e
  | .ok t => rank_and_filter sys query query_embedding query_date top_k return_scores t

/-! ## sciencetree.py -/

/-- A node of the science tree: the construction parameters `__init__` stores
plus the retrieved document ids and the recursively generated children.  The
client handles, model name and temperature held on the Python object are
run-time configuration, not tree data, and live in `GenEnv` instead. -/
inductive ScienceTreeNode where
  | mk (text : String) (year : Int) (n : Nat) (mode : Nat) (docs : List String)
      (children : List ScienceTreeNode)

def ScienceTreeNode.text : ScienceTreeNode → String
  | .mk t _ _ _ _ _ => t

def ScienceTreeNode.year : ScienceTreeNode → Int
  | .mk _ y _ _ _ _ => y

def ScienceTreeNode.branching : ScienceTreeNode → Nat
  | .mk _ _ n _ _ _ => n

def ScienceTreeNode.mode : ScienceTreeNode → Nat
  | .mk _ _ _ m _ _ => m

def ScienceTreeNode.docs : ScienceTreeNode → List String
  | .mk _ _ _ _ d _ => d

def ScienceTreeNode.children : ScienceTreeNode → List ScienceTreeNode
  | .mk _ _ _ _ _ c => c

/-- The external collaborators a node construction uses: the retriever and the
Anthropic generation client. -/
structure GenEnv where
  retrieve : String → String → Nat → List String
  get_document_texts : List String → List (String × String)
  complete : String → String → String

/-- One observable call to an external collaborator, recorded in order. -/
inductive Eff where
  | retrieveCall (query : String) (yearstr : String)
  | completeCall (system : String) (user : String)

/-- `str(self.year // 100) + "01.0001"`: the coarse year string handed to the
retriever (Python `//` is floor division). -/
def yearstrOf (year : Int) : String := toString (Int.fdiv year 100) ++ "01.0001"

/-- The mode labels. -/
def modes : List String :=
  ["Science Goal", "Science Objective", "Physical Parameter", "Astronomical Observable"]

/-- The `(id, abstract)` pairs `get_document_texts` returns for the retrieved
ids. -/
def docTextsOf (env : GenEnv) (text : String) (year : Int) : List (String × String) :=
  env.get_document_texts (env.retrieve text (yearstrOf year) 10)

/-- The user-message input block of `generate`: mode label and node text, then
each retrieved document's id and abstract. -/
def inputTextOf (env : GenEnv) (text : String) (year : Int) (mode : Nat) : String :=
  (docTextsOf env text year).foldl (fun acc d => acc ++ d.1 ++ ": " ++ d.2 ++ "\n")
    (modes.getD mode "" ++ ": " ++ text ++ "\n")

/-- The three mode-specific instruction templates of `generate`, with the
branching factor formatted in.  Wording abridged to the operative sentences;
no property proved below depends on it. -/
def systemsOf (n : Nat) : List String :=
  [ "Given the following over-arching science goal and related astrophysics papers, " ++
      "brainstorm exactly " ++ toString n ++ " focused science objectives. " ++
      "Return each science objective on a separate line, enclosed in curly braces.",
    "Given the following science objective and related astrophysics research papers, " ++
      "identify exactly " ++ toString n ++ " astrophysical parameters. " ++
      "Return each astrophysical parameter on a separate line, enclosed in curly braces.",
    "Given the following astrophysical parameter and related research papers, " ++
      "identify exactly " ++ toString n ++ " concrete observables. " ++
      "Return each observable on a separate line, enclosed in curly braces." ]

/-- The response text of the generation call made by `generate`. -/
def responseOf (env : GenEnv) (text : String) (year : Int) (background : String)
    (n : Nat) (mode : Nat) : String :=
  env.complete (background ++ "\n" ++ (systemsOf n).getD mode "") (inputTextOf env text year mode)

/-- The child-parsing loop of `generate`, over the lines of the response.
Python's `if '{' and '}' in pair` evaluates to `'}' in pair` (the first
operand is a truthy literal), so a line is accepted exactly when it contains
a closing brace; `pair.split('{')[1]` then raises IndexError when the line
has no opening brace, and otherwise yields the text between the first and
second opening braces, from which `.replace('}', '')` removes every closing
brace.  `build` constructs the child node for the extracted text. -/
def parseChildren (build : String → Except String (ScienceTreeNode × List Eff)) :
    List (List Char) → Except String (List ScienceTreeNode × List Eff)
  | [] => .ok ([], [])
  | pair :: rest =>
    if pair.contains '\x7d' then
      match pySplit ['\x7b'] pair with
      | [] => .error "unreachable: split is never empty"
      | [_] => .error "IndexError: list index out of range"
      | _ :: second :: _ =>
        let child := String.mk (second.filter (fun c => c ≠ '\x7d'))
        match build child with
        | .error e => .error e
        | .ok (node, effs) =>
          match parseChildren build rest with
          | .error e => .error e
          | .ok (nodes, effs2) => .ok (node :: nodes, effs ++ effs2)
    else parseChildren build rest

/-- Fuel-indexed core of `scienceTreeNode.__init__` + `generate`.  The
recursion is bounded: `__init__` calls `generate` only when `mode < 3`, and
every child is built at `mode + 1`, so the wrapper's fuel `3 - mode` always
suffices; the fuel-exhausted guard below is unreachable from the wrapper.
For `mode < 3` the body is `generate`: retrieve grounding documents, record
their ids, build the prompt, call the generation client, and parse one child
per accepted response line; nodes at `mode ≥ 3` are leaves with no calls. -/
def scienceTreeNodeAux (env : GenEnv) (background : String) (n : Nat) :
    Nat → String → Int → Nat → Except String (ScienceTreeNode × List Eff)
  | 0, text, year, mode =>
    if mode < 3 then .error "fuel exhausted (unreachable from scienceTreeNode)"
    else .ok (.mk text year n mode [] [], [])
  | gas + 1, text, year, mode =>
    if mode < 3 then
      let docs := env.retrieve text (yearstrOf year) 10
      let doc_texts := env.get_document_texts docs
      let nodeDocs := doc_texts.map (fun d => d.1)
      let message := responseOf env text year background n mode
      match parseChildren
          (fun t => scienceTreeNodeAux env background n gas t year (mode + 1))
          (pySplit ['\n'] message.data) with
      | .error e => .error e
      | .ok (children, childEffs) =>
        .ok (.mk text year n mode nodeDocs children,
          Eff.retrieveCall text (yearstrOf year) ::
            Eff.completeCall (background ++ "\n" ++ (systemsOf n).getD mode "")
              (inputTextOf env text year mode) :: childEffs)
    else .ok (.mk text year n mode [] [], [])

/-- sciencetree.py `scienceTreeNode(...)`: construct a node (and recursively
its subtree) at the given mode, also returning the ordered record of external
calls made during construction. -/
def scienceTreeNode (env : GenEnv) (text : String) (year : Int) (background : String)
    (n : Nat) (mode : Nat) : Except String (ScienceTreeNode × List Eff) :=
  scienceTreeNodeAux env background n (3 - mode) text year mode

/-- The default persona background `__init__` installs when none is given
(the optional experiment suffix appended when supplied). -/
def defaultBackground (experiment : Option String) : String :=
  "You are an expert astronomer trying to understand the science case for a future observatory."
    ++ experiment.getD ""

/-- The number of response lines the parsing loop accepts: those containing a
closing brace (the claim-side counting rule used to state how many children
an expansion yields). -/
def acceptedLineCount (response : String) : Nat :=
  ((pySplit ['\n'] response.data).filter (fun line => line.contains '\x7d')).length

/-- Projection to the constructed node, discarding the recorded calls. -/
def builtNode (r : Except String (ScienceTreeNode × List Eff)) : Option ScienceTreeNode :=
  match r with
  | .ok (node, _) => some node
  | .error _ => none

/-! ## Concrete instances used by the counterexamples and witnesses -/

/-- Retrieval state for the tie-break run: two documents whose abstract
sections share embedding row 0, listed in the index mapping with "b" before
"a". -/
def tieSys : EmbeddingRetrievalSystem :=
  { embeddings := [[1]],
    index_mapping := [("b", ⟨some 0, none⟩), ("a", ⟨some 0, none⟩)] }

/-- A small similarity assignment. -/
def sims0 : Nat → Int := fun i => (i : Int)

/-- A one-document index mapping with both sections embedded. -/
def im0 : List (String × Mappings) := [("a", ⟨some 0, some 1⟩)]

/-- Generation environment for the over-production run: retrieval returns no
documents and the model answers with three well-formed delimited lines. -/
def overEnv : GenEnv :=
  { retrieve := fun _ _ _ => [],
    get_document_texts := fun _ => [],
    complete := fun _ _ => "\x7ba\x7d\n\x7bb\x7d\n\x7bc\x7d" }

/-- The tree the over-production run builds. -/
def overNode : ScienceTreeNode :=
  .mk "p" 2024 2 2 []
    [.mk "a" 2024 2 3 [] [], .mk "b" 2024 2 3 [] [], .mk "c" 2024 2 3 [] []]

/-- The external calls the over-production run records: one retrieval and one
generation call at the root, none in the three leaf children. -/
def overEffs : List Eff :=
  [Eff.retrieveCall "p" (yearstrOf 2024),
   Eff.completeCall ("bg" ++ "\n" ++ (systemsOf 2).getD 2 "") (inputTextOf overEnv "p" 2024 2)]

/-- Generation environment for the stray-brace run: the model answer's second
line contains a closing brace but no opening brace. -/
def strayEnv : GenEnv :=
  { retrieve := fun _ _ _ => [],
    get_document_texts := fun _ => [],
    complete := fun _ _ => "\x7bA\x7d\nstray \x7d line" }

/-! Supporting lemmas about the split primitives. -/

theorem findSplit_post_lt {sep : List Char} (hsep : sep ≠ []) :
    ∀ s pre post, findSplit sep s = some (pre, post) → post.length < s.length := by
  intro s
  induction s with
  | nil => intro pre post h; exact absurd h (by simp [findSplit])
  | cons c cs ih =>
    intro pre post h
    simp only [findSplit] at h
    by_cases hp : sep.isPrefixOf (c :: cs)
    · rw [if_pos hp] at h
      simp only [Option.some.injEq, Prod.mk.injEq] at h
      obtain ⟨-, h2⟩ := h
      have hlen : 0 < sep.length := List.length_pos.mpr hsep
      rw [← h2]
      simp only [List.length_drop]
      exact Nat.sub_lt (by simp) hlen
    · rw [if_neg hp] at h
      cases hq : findSplit sep cs with
      | none => rw [hq] at h; exact absurd h (by simp)
      | some p =>
        rw [hq] at h
        simp only [Option.map_some', Option.some.injEq, Prod.mk.injEq] at h
        obtain ⟨-, h2⟩ := h
        have := ih p.1 p.2 (by rw [hq])
        rw [← h2]
        exact Nat.lt_succ_of_lt this

theorem pySplitAux_ne_nil (sep : List Char) (f : Nat) (s : List Char) :
    pySplitAux sep f s ≠ [] := by
  cases f with
  | zero => simp [pySplitAux]
  | succ g =>
    cases h : findSplit sep s with
    | none => simp [pySplitAux, h]
    | some p => simp [pySplitAux, h]

theorem pyLast_pySplitAux {sep : List Char} (hsep : sep ≠ []) :
    ∀ f s, s.length ≤ f → pyLast (pySplitAux sep f s) = afterLastAux sep f s := by
  intro f
  induction f with
  | zero =>
    intro s hs
    have : s = [] := List.length_eq_zero.mp (Nat.le_zero.mp hs)
    subst this
    rfl
  | succ g ih =>
    intro s hs
    cases h : findSplit sep s with
    | none => simp [pySplitAux, afterLastAux, h, pyLast]
    | some p =>
      have hlt : p.2.length < s.length := findSplit_post_lt hsep s p.1 p.2 (by simpa using h)
      have hle : p.2.length ≤ g := Nat.lt_succ_iff.mp (Nat.lt_of_lt_of_le hlt hs)
      cases h2 : pySplitAux sep g p.2 with
      | nil => exact absurd h2 (pySplitAux_ne_nil sep g p.2)
      | cons y ys =>
        have : pyLast (pySplitAux sep (g + 1) s) = pyLast (pySplitAux sep g p.2) := by
          simp [pySplitAux, h, h2, pyLast]
        rw [this, ih p.2 hle]
        simp [afterLastAux, h]

theorem pyLast_pySplit {sep : List Char} (hsep : sep ≠ []) (s : List Char) :
    pyLast (pySplit sep s) = afterLast sep s :=
  pyLast_pySplitAux hsep s.length s le_rfl

theorem findSplit_single_none (c : Char) :
    ∀ s, findSplit [c] s = none → untilChar c s = s := by
  intro s
  induction s with
  | nil => intro _; rfl
  | cons a as ih =>
    intro h
    simp only [findSplit] at h
    by_cases hp : [c].isPrefixOf (a :: as)
    · rw [if_pos hp] at h; exact absurd h (by simp)
    · rw [if_neg hp] at h
      have hfs : findSplit [c] as = none := by
        cases hq : findSplit [c] as with
        | none => rfl
        | some p => rw [hq] at h; exact absurd h (by simp)
      have hne : ¬(a = c) := by
        intro hac
        exact hp (by simp [List.isPrefixOf, hac])
      rw [untilChar, if_neg hne, ih hfs]

theorem findSplit_single_some (c : Char) :
    ∀ s pre post, findSplit [c] s = some (pre, post) → pre = untilChar c s := by
  intro s
  induction s with
  | nil => intro pre post h; exact absurd h (by simp [findSplit])
  | cons a as ih =>
    intro pre post h
    simp only [findSplit] at h
    by_cases hp : [c].isPrefixOf (a :: as)
    · rw [if_pos hp] at h
      simp only [Option.some.injEq, Prod.mk.injEq] at h
      have hac : a = c := by
        have := hp
        simp [List.isPrefixOf] at this
        exact this.symm
      rw [untilChar, if_pos hac, ← h.1]
    · rw [if_neg hp] at h
      cases hq : findSplit [c] as with
      | none => rw [hq] at h; exact absurd h (by simp)
      | some p =>
        rw [hq] at h
        simp only [Option.map_some', Option.some.injEq, Prod.mk.injEq] at h
        obtain ⟨h1, -⟩ := h
        have hne : ¬(a = c) := by
          intro hac
          exact hp (by simp [List.isPrefixOf, hac])
        rw [untilChar, if_neg hne, ← h1, ih p.1 p.2 (by rw [hq])]

theorem pyHead_pySplit_single (c : Char) (s : List Char) :
    pyHead (pySplit [c] s) = untilChar c s := by
  cases s with
  | nil => rfl
  | cons a as =>
    show pyHead (pySplitAux [c] (as.length + 1) (a :: as)) = _
    cases h : findSplit [c] (a :: as) with
    | none =>
      simp only [pySplitAux, h, pyHead]
      exact (findSplit_single_none c _ h).symm
    | some p =>
      simp only [pySplitAux, h, pyHead]
      exact findSplit_single_some c _ p.1 p.2 (by rw [h])

/-- C8 counterexample: on the id `"Xastro-ph123_sec.txt"` the code keeps only
the text after the last occurrence of `"astro-ph"` inside the pre-underscore
part (yielding `123`), while the rule as the specification states it — strip a
leading `astro-ph` prefix only — would keep `Xastro-ph123` unchanged, since
`astro-ph` is not a prefix there.  The two URLs differ. -/
theorem format_paper_link_counterexample :
    format_paper_link "Xastro-ph123_sec.txt" = "https://arxiv.org/abs/astro-ph/123" ∧
    specPaperLink "Xastro-ph123_sec.txt" = "https://arxiv.org/abs/astro-ph/Xastro-ph123" ∧
    format_paper_link "Xastro-ph123_sec.txt" ≠ specPaperLink "Xastro-ph123_sec.txt" :=
  ⟨by decide, by decide, by decide⟩

/-- C8 (amended): when the document id contains ".txt", `format_paper_link`
returns `https://arxiv.org/abs/astro-ph/` followed by the id's substring
before the first underscore with everything up to and including the LAST
occurrence of "astro-ph" removed (the substring unchanged when "astro-ph" does
not occur in it) — not merely with a leading "astro-ph" prefix stripped;
otherwise it returns `https://arxiv.org/abs/` followed by the id unchanged.
The two literal examples of the specification hold: id "2301.00001" maps to
"https://arxiv.org/abs/2301.00001" and id "astro-ph0001_sec2.txt" maps to
"https://arxiv.org/abs/astro-ph/0001". -/
theorem format_paper_link_amended (paper_id : String) :
    format_paper_link paper_id =
      (if pyContains ".txt".data paper_id.data then
        "https://arxiv.org/abs/astro-ph/" ++
          String.mk (afterLast "astro-ph".data (beforeUnderscore paper_id.data))
      else "https://arxiv.org/abs/" ++ paper_id) ∧
    format_paper_link "2301.00001" = "https://arxiv.org/abs/2301.00001" ∧
    format_paper_link "astro-ph0001_sec2.txt" = "https://arxiv.org/abs/astro-ph/0001" := by
  refine ⟨?_, by decide, by decide⟩
  unfold format_paper_link
  split
  · rw [show "_".data = ['_'] from rfl, pyHead_pySplit_single,
      pyLast_pySplit (show "astro-ph".data ≠ [] by decide)]
    rfl
  · rfl

/-! Lemmas about the stable descending sort. -/

theorem mem_insertDesc (x y : String × String × WithBot Int)
    (l : List (String × String × WithBot Int)) :
    y ∈ insertDesc x l ↔ y = x ∨ y ∈ l := by
  induction l with
  | nil => simp [insertDesc]
  | cons a as ih =>
    by_cases h : x.2.2 ≥ a.2.2
    · simp [insertDesc, h]
    · simp only [insertDesc, if_neg h, List.mem_cons, ih]
      tauto

theorem pairwise_insertDesc (x : String × String × WithBot Int)
    (l : List (String × String × WithBot Int))
    (h : l.Pairwise (fun a b => b.2.2 ≤ a.2.2)) :
    (insertDesc x l).Pairwise (fun a b => b.2.2 ≤ a.2.2) := by
  induction l with
  | nil => simp [insertDesc]
  | cons a as ih =>
    rw [List.pairwise_cons] at h
    obtain ⟨ha, has⟩ := h
    by_cases hc : x.2.2 ≥ a.2.2
    · rw [insertDesc, if_pos hc]
      refine List.Pairwise.cons ?_ (List.Pairwise.cons ha has)
      intro z hz
      rcases List.mem_cons.mp hz with rfl | hz
      · exact hc
      · exact le_trans (ha z hz) hc
    · rw [insertDesc, if_neg hc]
      refine List.Pairwise.cons ?_ (ih has)
      intro z hz
      rcases (mem_insertDesc x z as).mp hz with rfl | hz
      · exact le_of_not_le hc
      · exact ha z hz

theorem pairwise_pySortDesc (l : List (String × String × WithBot Int)) :
    (pySortDesc l).Pairwise (fun a b => b.2.2 ≤ a.2.2) := by
  induction l with
  | nil => simp [pySortDesc]
  | cons x xs ih =>
    rw [pySortDesc]
    exact pairwise_insertDesc x _ ih

/-- C3 counterexample: on a query embedding giving the documents "a" and "b"
exactly equal scores, `rank_and_filter` returns `["b", "a"]` — the index-mapping
iteration order (the Python sort is stable and keyed on the score alone) —
although "a" is the smaller document id, so the claimed id-ascending
tie-break would require `["a", "b"]`. -/
theorem rank_and_filter_tie_counterexample :
    rank_and_filter tieSys "q" [1] none 10 false ⟨false, none, none⟩ = .ok (.ids ["b", "a"]) ∧
    (scoreResults (simsOf tieSys [1]) tieSys.index_mapping).map (fun c => c.2.2) =
      [((1 : Int) : WithBot Int), ((1 : Int) : WithBot Int)] ∧
    strLtChars "a".data "b".data = true ∧
    (["b", "a"] : List String) ≠ ["a", "b"] :=
  ⟨by rfl, by decide, by decide, by decide⟩

/-- C3 (amended): with the keyword toggle off (its observed default; enabling
it would fault on the missing `keyword_filter` attribute), `rank_and_filter`
returns the ids of `topResults`, a list of at most `top_k` candidates sorted
by score in non-strictly descending order.  Equal scores keep the
index-mapping iteration order of the stable sort; no id-based tie-break is
applied. -/
theorem rank_and_filter_amended (sys : EmbeddingRetrievalSystem) (query : String)
    (query_embedding : List Int) (query_date : Option Int) (top_k : Nat)
    (time_result : TemporalResult) (h : sys.weight_keywords = false) :
    rank_and_filter sys query query_embedding query_date top_k false time_result =
      .ok (.ids ((topResults sys query_embedding top_k).map (fun d => d.1))) ∧
    (topResults sys query_embedding top_k).length ≤ top_k ∧
    (topResults sys query_embedding top_k).Pairwise (fun a b => b.2.2 ≤ a.2.2) := by
  refine ⟨?_, ?_, ?_⟩
  · simp [rank_and_filter, h]
  · unfold topResults
    exact List.length_take_le _ _
  · exact (pairwise_pySortDesc _).sublist (List.take_sublist _ _)

/-- C3 witness: the amended statement evaluated on the tie-break system with
`top_k = 1`. -/
theorem rank_and_filter_amended_witness :
    tieSys.weight_keywords = false ∧
    rank_and_filter tieSys "q" [1] none 1 false ⟨false, none, none⟩ =
      .ok (.ids ((topResults tieSys [1] 1).map (fun d => d.1))) ∧
    (topResults tieSys [1] 1).length ≤ 1 :=
  ⟨rfl, (rank_and_filter_amended tieSys "q" [1] none 1 ⟨false, none, none⟩ rfl).1,
    (rank_and_filter_amended tieSys "q" [1] none 1 ⟨false, none, none⟩ rfl).2.1⟩

/-! Lemmas about the per-document scoring. -/

theorem scoreDoc_fst (similarities : Nat → Int) (p : String × Mappings) :
    (scoreDoc similarities p).1 = p.1 := by
  simp only [scoreDoc]
  split <;> rfl

theorem filter_scoreResults_length (similarities : Nat → Int)
    (im : List (String × Mappings)) (d : String) :
    ((scoreResults similarities im).filter (fun r => r.1 = d)).length =
      ((im.map Prod.fst).filter (fun x => x = d)).length := by
  induction im with
  | nil => rfl
  | cons p ps ih =>
    simp only [scoreResults, List.map_cons, List.filter_cons, scoreDoc_fst]
    by_cases h : p.1 = d
    · simp only [h, decide_True, List.length_cons]
      exact congrArg Nat.succ ih
    · simp only [h, decide_False]
      exact ih

theorem filter_eq_length_one {l : List String} (hnd : l.Nodup) (d : String) (hd : d ∈ l) :
    (l.filter (fun x => x = d)).length = 1 := by
  induction l with
  | nil => cases hd
  | cons a as ih =>
    rw [List.nodup_cons] at hnd
    rcases List.mem_cons.mp hd with rfl | hmem
    · have hnone : as.filter (fun x => x = d) = [] := by
        rw [List.filter_eq_nil_iff]
        intro b hb hbd
        have hbd2 : b = d := of_decide_eq_true hbd
        exact hnd.1 (hbd2 ▸ hb)
      simp [List.filter_cons, hnone]
    · have hne : ¬(a = d) := by
        intro h
        exact hnd.1 (h ▸ hmem)
      simp only [List.filter_cons, hne, decide_False]
      exact ih hnd.2 hmem

/-- C5: scoring produces exactly one candidate entry per document of the index
mapping (given distinct document ids, as Python dictionary keys are); the
entry keeps the document id, its score is the maximum of the abstract-row and
conclusions-row similarities with a missing section counting as `-inf` (`⊥`),
and for a document with both sections embedded the tagged winning section is
the section whose dot-product similarity is strictly higher. -/
theorem scoring_one_entry_max (similarities : Nat → Int) (im : List (String × Mappings))
    (hnd : (im.map Prod.fst).Nodup) :
    (∀ d ∈ im.map Prod.fst,
      ((scoreResults similarities im).filter (fun r => r.1 = d)).length = 1) ∧
    (∀ p ∈ im,
      (scoreDoc similarities p).1 = p.1 ∧
      (scoreDoc similarities p).2.2 =
        max (secSim similarities p.2.abstract) (secSim similarities p.2.conclusions) ∧
      (∀ i j, p.2.abstract = some i → p.2.conclusions = some j →
        ((similarities j < similarities i → (scoreDoc similarities p).2.1 = "abstract") ∧
         (similarities i < similarities j → (scoreDoc similarities p).2.1 = "conclusions")))) := by
  constructor
  · intro d hd
    rw [filter_scoreResults_length]
    exact filter_eq_length_one hnd d hd
  · intro p _
    refine ⟨scoreDoc_fst similarities p, ?_, ?_⟩
    · simp only [scoreDoc]
      split
      · rename_i hgt
        exact (max_eq_left (le_of_lt hgt)).symm
      · rename_i hle
        exact (max_eq_right (not_lt.mp hle)).symm
    · intro i j hi hj
      constructor
      · intro hlt
        have : secSim similarities p.2.abstract > secSim similarities p.2.conclusions := by
          rw [hi, hj]
          simp only [secSim]
          exact_mod_cast hlt
        simp only [scoreDoc, if_pos this]
      · intro hlt
        have : ¬(secSim similarities p.2.abstract > secSim similarities p.2.conclusions) := by
          rw [hi, hj]
          simp only [not_lt, secSim]
          exact_mod_cast le_of_lt hlt
        simp only [scoreDoc, if_neg this]

/-- C5 witness: the per-document guarantees evaluated on a one-document
mapping with both sections embedded. -/
theorem scoring_one_entry_max_witness :
    (im0.map Prod.fst).Nodup ∧
    ((scoreResults sims0 im0).filter (fun r => r.1 = "a")).length = 1 ∧
    (scoreDoc sims0 ("a", ⟨some 0, some 1⟩)).2.2 =
      max (secSim sims0 (some 0)) (secSim sims0 (some 1)) ∧
    (sims0 0 < sims0 1 → (scoreDoc sims0 ("a", ⟨some 0, some 1⟩)).2.1 = "conclusions") :=
  ⟨by decide,
    (scoring_one_entry_max sims0 im0 (by decide)).1 "a" (by decide),
    ((scoring_one_entry_max sims0 im0 (by decide)).2 ("a", ⟨some 0, some 1⟩) (by decide)).2.1,
    fun h => (((scoring_one_entry_max sims0 im0 (by decide)).2 ("a", ⟨some 0, some 1⟩)
      (by decide)).2.2 0 1 rfl rfl).2 h⟩

/-- C9: whenever the abstract-section and conclusions-section similarities of
a document are exactly equal — including the case in which both sections are
missing and both score `-inf` — the candidate entry is tagged "conclusions":
the comparison is strict greater-than on the abstract side, so ties fall to
the else branch. -/
theorem tie_goes_to_conclusions (similarities : Nat → Int) (p : String × Mappings)
    (h : secSim similarities p.2.abstract = secSim similarities p.2.conclusions) :
    (scoreDoc similarities p).2.1 = "conclusions" := by
  have hng : ¬(secSim similarities p.2.abstract > secSim similarities p.2.conclusions) := by
    rw [h]
    exact lt_irrefl _
  simp only [scoreDoc, if_neg hng]

/-- C9 witness: a document with both sections missing ties at `⊥` and is
tagged "conclusions". -/
theorem tie_goes_to_conclusions_witness :
    (scoreDoc sims0 ("d", ⟨none, none⟩)).2.1 = "conclusions" :=
  tie_goes_to_conclusions sims0 ("d", ⟨none, none⟩) rfl

/-- C10: the `arxiv_id`/date-cutoff argument of `retrieve` is parsed into
`query_date` and then never read — every use of `query_date` and of the
temporal result inside `rank_and_filter` is commented out in the source — so
two retrievals differing only in that argument return identical results: same
document ids, same scores, same order, for every system state, embedding
client, generation client, date parser, query and mode. -/
theorem retrieve_ignores_date_cutoff (sys : EmbeddingRetrievalSystem)
    (embed : String → List Int) (complete : String → String)
    (parse_date : Option String → Option Int) (query : String)
    (id1 id2 : Option String) (top_k : Nat) (return_scores : Bool)
    (time_result : Option TemporalResult) :
    retrieve sys embed complete parse_date query id1 top_k return_scores time_result =
      retrieve sys embed complete parse_date query id2 top_k return_scores time_result := rfl

/-- C7: whenever the pattern-based fast path finds no temporal cue,
`analyze_temporal_query` returns `has_temporal_aspect = false` with no
year-filter expression and no recency weight, and the language-model client
is never invoked: the result is this constant for every client and the
recorded prompt list is empty. -/
theorem analyze_temporal_fast_path (complete : String → String) (query : String)
    (h : is_temporal_query query = false) :
    analyze_temporal_query complete query = .ok (⟨false, none, none⟩, []) := by
  simp [analyze_temporal_query, h]

/-- C7 witness: the specification's literal example query has no temporal
cue, so the analyzer answers non-temporal without any client call. -/
theorem analyze_temporal_fast_path_witness :
    is_temporal_query "what is the stellar mass of the Milky Way?" = false ∧
    analyze_temporal_query (fun _ => "") "what is the stellar mass of the Milky Way?" =
      .ok (⟨false, none, none⟩, []) :=
  ⟨by decide, analyze_temporal_fast_path (fun _ => "") _ (by decide)⟩

/-- C1 (code bug): the source never parses the model response with a strict
year-filter parser — temporal.py line 82 hands the response text to Python
`eval` and returns the extracted fields unvalidated.  On a temporal query and
a well-formed dictionary response whose filter value `len(query)` lies
outside the year-filter grammar (which accepts e.g. `year >= 2015`), the
analyzer returns `has_temporal_aspect = true` carrying the ungrammatical
expression verbatim, instead of the claimed `TemporalAnalysisError` (which
appears nowhere in the source) and fallback to `has_temporal_aspect = false`. -/
theorem analyze_temporal_no_validation :
    yearFilterOk "len(query)" = false ∧
    yearFilterOk "year >= 2015" = true ∧
    yearFilterOk "(year >= 1990 and year < 2000) or (year >= 2020 and year < 2030)" = true ∧
    analyze_temporal_query (fun _ => badFilterResponse)
        "What are the latest developments in exoplanet detection since 2015?" =
      .ok (⟨true, some "len(query)", some 5⟩,
        [temporalPrompt "What are the latest developments in exoplanet detection since 2015?"]) :=
  ⟨by decide, by decide, by decide, by rfl⟩

/-! Lemmas about tree expansion. -/

theorem scienceTreeNodeAux_shape (env : GenEnv) (background : String) (n : Nat)
    (gas : Nat) (text : String) (year : Int) (mode : Nat)
    (node : ScienceTreeNode) (effs : List Eff)
    (h : scienceTreeNodeAux env background n gas text year mode = .ok (node, effs)) :
    node.mode = mode ∧ node.text = text := by
  cases gas with
  | zero =>
    simp only [scienceTreeNodeAux] at h
    split at h
    · exact absurd h (by simp)
    · simp only [Except.ok.injEq, Prod.mk.injEq] at h
      rw [← h.1]
      exact ⟨rfl, rfl⟩
  | succ g =>
    simp only [scienceTreeNodeAux] at h
    split at h
    · split at h
      · exact absurd h (by simp)
      · simp only [Except.ok.injEq, Prod.mk.injEq] at h
        obtain ⟨h1, -⟩ := h
        rw [← h1]
        exact ⟨rfl, rfl⟩
    · simp only [Except.ok.injEq, Prod.mk.injEq] at h
      rw [← h.1]
      exact ⟨rfl, rfl⟩

theorem parseChildren_count (build : String → Except String (ScienceTreeNode × List Eff)) :
    ∀ lines nodes effs, parseChildren build lines = .ok (nodes, effs) →
      nodes.length = (lines.filter (fun line => line.contains '\x7d')).length ∧
      ∀ nd ∈ nodes, ∃ t e, build t = .ok (nd, e) := by
  intro lines
  induction lines with
  | nil =>
    intro nodes effs h
    simp only [parseChildren, Except.ok.injEq, Prod.mk.injEq] at h
    rw [← h.1]
    exact ⟨rfl, by simp⟩
  | cons pair rest ih =>
    intro nodes effs h
    simp only [parseChildren] at h
    by_cases hc : pair.contains '\x7d'
    · rw [if_pos hc] at h
      split at h
      · exact absurd h (by simp)
      · exact absurd h (by simp)
      · split at h
        · exact absurd h (by simp)
        · rename_i node1 effs1 hbuild
          split at h
          · exact absurd h (by simp)
          · rename_i nodes2 effs2 hrest
            simp only [Except.ok.injEq, Prod.mk.injEq] at h
            obtain ⟨h1, -⟩ := h
            obtain ⟨hlen, hall⟩ := ih nodes2 effs2 hrest
            rw [← h1]
            constructor
            · simp only [List.filter_cons, hc, List.length_cons]
              exact congrArg Nat.succ hlen
            · intro nd hnd
              rcases List.mem_cons.mp hnd with rfl | hnd
              · exact ⟨_, _, hbuild⟩
              · exact hall nd hnd
    · rw [if_neg hc] at h
      obtain ⟨hlen, hall⟩ := ih nodes effs h
      constructor
      · simp only [List.filter_cons, hc]
        exact hlen
      · exact hall

/-- C6: a `scienceTreeNode` constructed at mode 3 is a leaf by construction,
for every environment and branching factor: its children list is empty, its
retrieved-documents list is empty, and the recorded list of external calls is
empty — no retrieval call and no generation-client call happens. -/
theorem mode3_leaf (env : GenEnv) (text : String) (year : Int) (background : String) (n : Nat) :
    scienceTreeNode env text year background n 3 =
      .ok (.mk text year n 3 [] [], []) := rfl

/-- C2 counterexample: with branching factor n = 2 at mode 2, a generation
response containing three well-formed delimited lines yields a node with
three children — more than n — so the children count of an expansion is not
bounded above by the branching factor. -/
theorem generate_overproduces :
    (builtNode (scienceTreeNode overEnv "p" 2024 "bg" 2 2)).map
      (fun nd => nd.children.length) = some 3 := by rfl

/-- C2 (amended): a non-terminal expansion (mode < 3) that completes without
error produces exactly one child per accepted response line — a line is
accepted exactly when it contains a closing brace — and every child has
mode = parent.mode + 1.  With a response of exactly n well-formed delimited
lines and no other brace-bearing line this is exactly n children, but the
count equals the accepted-line count in general and is NOT capped at the
branching factor: a response with more delimited lines yields more than n
children. -/
theorem generate_children_count (env : GenEnv) (text : String) (year : Int)
    (background : String) (n : Nat) (mode : Nat) (node : ScienceTreeNode) (effs : List Eff)
    (h1 : mode < 3)
    (h2 : scienceTreeNode env text year background n mode = .ok (node, effs)) :
    node.children.length = acceptedLineCount (responseOf env text year background n mode) ∧
    ∀ c ∈ node.children, c.mode = mode + 1 := by
  have hg : 3 - mode = (2 - mode) + 1 := by omega
  unfold scienceTreeNode at h2
  rw [hg] at h2
  simp only [scienceTreeNodeAux, if_pos h1] at h2
  split at h2
  · exact absurd h2 (by simp)
  · rename_i children childEffs hparse
    simp only [Except.ok.injEq, Prod.mk.injEq] at h2
    obtain ⟨hnode, -⟩ := h2
    obtain ⟨hlen, hall⟩ := parseChildren_count _ _ children childEffs hparse
    rw [← hnode]
    constructor
    · exact hlen
    · intro c hc
      obtain ⟨t, e, hbuild⟩ := hall c hc
      exact (scienceTreeNodeAux_shape env background n (2 - mode) t year (mode + 1) c e
        hbuild).1

/-- C2 witness: the amended statement evaluated on the over-production run —
the accepted-line count of the three-line response is 3, the node has 3
children, and its first child sits at mode 2 + 1. -/
theorem generate_children_count_witness :
    2 < 3 ∧
    scienceTreeNode overEnv "p" 2024 "bg" 2 2 = .ok (overNode, overEffs) ∧
    overNode.children.length = acceptedLineCount (responseOf overEnv "p" 2024 "bg" 2 2) ∧
    ScienceTreeNode.mode (.mk "a" 2024 2 3 [] []) = 2 + 1 :=
  ⟨by decide, by rfl,
    (generate_children_count overEnv "p" 2024 "bg" 2 2 overNode overEffs
      (by decide) (by rfl)).1,
    (generate_children_count overEnv "p" 2024 "bg" 2 2 overNode overEffs
      (by decide) (by rfl)).2 (.mk "a" 2024 2 3 [] []) (List.Mem.head _)⟩

/-- C4 (code bug): Python's `if '\x7b' and '\x7d' in pair` evaluates to
`'\x7d' in pair` because the first operand is a truthy literal, so the
response line `stray \x7d line` passes the acceptance test without containing
a complete delimited segment, and `pair.split('\x7b')[1]` then raises
IndexError — the whole expansion hard-fails, where the claim requires a line
without a complete delimited segment to be skipped without any error. -/
theorem malformed_line_crashes :
    scienceTreeNode strayEnv "p" 2024 "bg" 2 2 =
      .error "IndexError: list index out of range" := by rfl
